import Mathlib

/-!
Verification of the dataflow control plane in `src/flow/mod.rs` (the `Blender`
conductor and its `Migration` API), as a shallow embedding.

Node indices (`petgraph::graph::NodeIndex`) are `Nat` positions into the node
list; edges are `(source, target, materialized?)` triples in insertion order.
Rust panics (`assert!`, `unwrap`, indexing a missing key) are modelled by the
operations returning `Option`, with `none` for a panic. Logging, channels and
thread handles carry no graph state and are omitted; the packets a migration
sends are recorded where a claim depends on them.
-/

namespace Noria

/-- Embeds `checktable::TokenGenerator`: per-reader provenance, `(coarse parents,
granular parents with their base column)`. -/
structure TokenGenerator where
  coarse : List Nat
  granular : List (Nat × Nat)
deriving DecidableEq, Repr

/-- The `node::Reader` inner state: optional key column, optional token
generator, optional list of stream subscribers (a subscriber channel is
opaque, modelled as `Unit`). A fresh reader holds `some []` subscribers until
a domain takes the node. -/
structure ReaderInner where
  state : Option Nat
  token_generator : Option TokenGenerator
  streamers : Option (List Unit)
deriving DecidableEq, Repr

/-- Embeds `ops::base::Base` payload of a base node: per-column default values
(`DataType` modelled as `Nat`) and the dropped columns. -/
structure BaseData where
  defaults : List Nat
  dropped : List Nat
deriving DecidableEq, Repr

/-- Embeds `node::Type`: the closed set of node kinds. An `internal` node carries
`some` base payload exactly when `get_base()` returns `Some`. -/
inductive NType where
  | source
  | internal (base : Option BaseData)
  | ingress
  | egress
  | reader (inner : ReaderInner)
  | hook
deriving DecidableEq, Repr

/-- Embeds `node::Node`: name, field names, kind, transactional flag, optional
assigned domain, optional domain-local address, and whether the node body has
been `Taken` by a domain worker. -/
structure Node where
  name : String
  fields : List String
  ntype : NType
  transactional : Bool
  domain : Option Nat
  addr : Option Nat
  taken : Bool
deriving DecidableEq, Repr

/-- Embeds `Node::is_internal`. -/
def Node.is_internal (nd : Node) : Bool :=
  match nd.ntype with
  | .internal _ => true
  | _ => false

/-- Embeds `Node::get_base`. -/
def Node.get_base (nd : Node) : Option BaseData :=
  match nd.ntype with
  | .internal b => b
  | _ => none

/-- Whether the node is a `Reader(..)`. -/
def Node.isReader (nd : Node) : Bool :=
  match nd.ntype with
  | .reader _ => true
  | _ => false

/-- The `if let Type::Reader(_, ref inner)` view: the reader's inner state, or
`none` for any other kind. -/
def NType.readerInner? : NType → Option ReaderInner
  | .reader inner => some inner
  | _ => none

/-- The operator graph `petgraph::Graph<node::Node, Edge>` with `Edge = bool`
(is the edge materialized?). Nodes are indexed by list position; edges keep
insertion order as `(source, target, weight)`. -/
structure Graph where
  nodes : List Node
  edges : List (Nat × Nat × Bool)
deriving DecidableEq, Repr

/-- Indexing `graph[ni]` without the panic: `none` when out of bounds. -/
def Graph.nodeAt (g : Graph) (i : Nat) : Option Node :=
  g.nodes[i]?

/-- Embeds `Graph::add_node`: appends and returns the new index. -/
def Graph.addNode (g : Graph) (nd : Node) : Graph × Nat :=
  ({ g with nodes := g.nodes ++ [nd] }, g.nodes.length)

/-- Embeds `Graph::add_edge`: appends the edge; panics (`none`) when an endpoint is
not a node of the graph. -/
def Graph.addEdge (g : Graph) (s t : Nat) (w : Bool) : Option Graph :=
  if s < g.nodes.length ∧ t < g.nodes.length then
    some { g with edges := g.edges ++ [(s, t, w)] }
  else none

/-- Embeds `Graph::find_edge`: the index of the first edge `s → t`. -/
def Graph.findEdge (g : Graph) (s t : Nat) : Option Nat :=
  g.edges.findIdx? (fun e => e.1 == s && e.2.1 == t)

/-- Replace the weight of the edge at index `i`. -/
def setEdgeWeight : List (Nat × Nat × Bool) → Nat → Bool → List (Nat × Nat × Bool)
  | [], _, _ => []
  | e :: es, 0, w => (e.1, e.2.1, w) :: es
  | e :: es, i + 1, w => e :: setEdgeWeight es i w

/-- Replace the node at index `i`. -/
def setNodeAt : List Node → Nat → Node → List Node
  | [], _, _ => []
  | _ :: xs, 0, nd => nd :: xs
  | x :: xs, i + 1, nd => x :: setNodeAt xs i nd

/-- In-place update of one node of the graph. -/
def Graph.updateNode (g : Graph) (i : Nat) (nd : Node) : Graph :=
  { g with nodes := setNodeAt g.nodes i nd }

/-- Embeds `neighbors_directed(n, Outgoing)`: targets of the edges out of `n`. -/
def Graph.outNeighbors (g : Graph) (n : Nat) : List Nat :=
  (g.edges.filter (fun e => e.1 == n)).map (fun e => e.2.1)

/-- Embeds `neighbors_directed(n, Incoming)`: sources of the edges into `n`. -/
def Graph.inNeighbors (g : Graph) (n : Nat) : List Nat :=
  (g.edges.filter (fun e => e.2.1 == n)).map (fun e => e.1)

/-- The first child of `n` that is a `Reader`, with its inner state. Both
getters select a reader child this way (`filter`/`filter_map` on the outgoing
neighbors followed by `.next()`; "there should be at most one"). -/
def Graph.findReaderInner (g : Graph) (n : Nat) : Option (Nat × ReaderInner) :=
  ((g.outNeighbors n).filterMap (fun ni =>
    match g.nodeAt ni with
    | some nd =>
      match nd.ntype with
      | .reader inner => some (ni, inner)
      | _ => none
    | none => none)).head?

/-- The reader child's index alone, as `get_getter` selects it. -/
def Graph.findReader (g : Graph) (n : Nat) : Option Nat :=
  (g.findReaderInner n).map Prod.fst

/-- Embeds `externals(Outgoing)`: node indices with no outgoing edge, in index
order. -/
def Graph.externalsOutgoing (g : Graph) : List Nat :=
  (List.range g.nodes.length).filter (fun n => (g.outNeighbors n).isEmpty)

/-- The `Blender` conductor state. The slog logger, the per-domain channel
senders' payloads and the worker join handles are not graph state; `txs`
keeps only which domains have a control channel, and `streamPkts` records the
local addresses named in `AddStreamer` control packets sent by
`Migration::stream`. -/
structure Blender where
  ingredients : Graph
  source : Nat
  ndomains : Nat
  checktable : List TokenGenerator
  txs : List Nat
  streamPkts : List Nat
deriving DecidableEq, Repr

/-- Embeds `Blender::default()`: one `Source` node (transactional), nothing else. -/
def Blender.new : Blender :=
  { ingredients :=
      { nodes := [{ name := "source", fields := ["because-type-inference"],
                    ntype := .source, transactional := true,
                    domain := none, addr := none, taken := false }],
        edges := [] },
    source := 0, ndomains := 0, checktable := [], txs := [], streamPkts := [] }

/-- A pending column change, `ColumnChange`. -/
inductive ColumnChange where
  | add (field : String) (default : Nat)
  | drop (col : Nat)
deriving DecidableEq, Repr

/-- An in-flight `Migration`: the blender it mutates plus the pending-change
sets (`added`, `columns`, `readers`, `materialize`) and the start instant
(modelled as a `Nat` timestamp). -/
structure Migration where
  mainline : Blender
  added : List (Nat × Option Nat)
  columns : List (Nat × ColumnChange)
  readers : List (Nat × Nat)
  materialize : List (Nat × Nat)
  start : Nat
deriving DecidableEq, Repr

/-- Embeds `Blender::start_migration`: builds a `Migration` over this blender with
every pending-change set empty and `start` the instant of the call. The
function has no error return; Rust's `&mut self` borrow is what keeps two
migrations from coexisting. -/
def Blender.start_migration (b : Blender) (now : Nat) : Migration :=
  { mainline := b, added := [], columns := [], readers := [],
    materialize := [], start := now }

/-- Embeds `parents.iter().all(|p| ingredients[p].is_transactional())`: short-circuits
at the first non-transactional parent; indexing a missing node panics
(`none`). -/
def allTransactional (g : Graph) : List Nat → Option Bool
  | [] => some true
  | p :: ps =>
    match g.nodeAt p with
    | none => none
    | some nd => if nd.transactional then allTransactional g ps else some false

/-- Embeds `Migration::add_ingredient`. The operator's kind and the parent list its
`ancestors()` reports after `on_connected` are passed explicitly (the operator
trait lives in the `ops`/`node` modules). The node's transactional flag is
`!parents.is_empty() && parents.all(transactional)`; the node is recorded in
`added` with no domain; with no parents it is attached to `source`, otherwise
one edge per parent is added. Returns the new node's address. -/
def Migration.add_ingredient (m : Migration) (name : String) (fields : List String)
    (i : NType) (parents : List Nat) : Option (Migration × Nat) := do
  let g := m.mainline.ingredients
  let transactional ← if parents.isEmpty then some false else allTransactional g parents
  let (g1, ni) := g.addNode
    { name := name, fields := fields, ntype := i, transactional := transactional,
      domain := none, addr := none, taken := false }
  let g2 ←
    if parents.isEmpty then
      g1.addEdge m.mainline.source ni false
    else
      parents.foldlM (fun gacc p => gacc.addEdge p ni false) g1
  pure ({ m with
          mainline := { m.mainline with ingredients := g2 },
          added := (ni, none) :: m.added }, ni)

/-- Embeds `Migration::add_transactional_base`: adds a base node with
`transactional = true`, records it in `added`, and attaches it to `source`. -/
def Migration.add_transactional_base (m : Migration) (name : String)
    (fields : List String) (b : BaseData) : Option (Migration × Nat) := do
  let (g1, ni) := m.mainline.ingredients.addNode
    { name := name, fields := fields, ntype := .internal (some b), transactional := true,
      domain := none, addr := none, taken := false }
  let g2 ← g1.addEdge m.mainline.source ni false
  pure ({ m with
          mainline := { m.mainline with ingredients := g2 },
          added := (ni, none) :: m.added }, ni)

/-- Replace the value under `k` in the `added` map (`HashMap::insert`). -/
def insertAdded : List (Nat × Option Nat) → Nat → Option Nat → List (Nat × Option Nat)
  | [], k, v => [(k, v)]
  | (k2, v2) :: rest, k, v =>
    if k2 = k then (k, v) :: rest else (k2, v2) :: insertAdded rest k v

/-- Embeds `Migration::add_column`: asserts the node was **not** added in this
migration and is an internal node with a base; appends the field to the node's
schema (returning the new column's index); when the node body is `Taken` by a
worker, also appends the default to the base body and asserts the two indices
agree; queues an `Add` column change. -/
def Migration.add_column (m : Migration) (node : Nat) (field : String)
    (default : Nat) : Option (Migration × Nat) := do
  -- assert!(!self.added.contains_key(node.as_global()))
  if (m.added.lookup node).isSome then none else do
  let nd ← m.mainline.ingredients.nodeAt node
  -- assert!(base.is_internal() && base.get_base().is_some())
  let bd ← match nd.ntype with
    | .internal (some bd) => some bd
    | _ => none
  let col_i1 := nd.fields.length
  let nd1 := { nd with fields := nd.fields ++ [field] }
  let nd2 ←
    if nd.taken then
      -- assert_eq!(col_i1, col_i2)
      if col_i1 = bd.defaults.length then
        some { nd1 with ntype := .internal (some { bd with defaults := bd.defaults ++ [default] }) }
      else none
    else some nd1
  pure ({ m with
          mainline := { m.mainline with
            ingredients := m.mainline.ingredients.updateNode node nd2 },
          columns := m.columns ++ [(node, .add field default)] }, col_i1)

/-- Embeds `Migration::drop_column`: asserts the node was **not** added in this
migration and is an internal node with a base; when `Taken`, marks the column
dropped on the base body; queues a `Drop` column change. -/
def Migration.drop_column (m : Migration) (node : Nat) (column : Nat) :
    Option Migration := do
  -- assert!(!self.added.contains_key(node.as_global()))
  if (m.added.lookup node).isSome then none else do
  let nd ← m.mainline.ingredients.nodeAt node
  let bd ← match nd.ntype with
    | .internal (some bd) => some bd
    | _ => none
  let nd1 :=
    if nd.taken then
      { nd with ntype := .internal (some { bd with dropped := bd.dropped ++ [column] }) }
    else nd
  pure { m with
         mainline := { m.mainline with
           ingredients := m.mainline.ingredients.updateNode node nd1 },
         columns := m.columns ++ [(node, .drop column)] }

/-- Embeds `Migration::materialize` (named after the method; the field keeps the
struct's name): finds the edge `src → dst` (panicking when absent), and when
its weight is not yet set, sets it and records the endpoint pair. An edge
already materialized is left alone and the pair is **not** recorded. -/
def Migration.materializeEdge (m : Migration) (src dst : Nat) : Option Migration := do
  let e ← m.mainline.ingredients.findEdge src dst
  let edge ← m.mainline.ingredients.edges[e]?
  if edge.2.2 then
    pure m
  else
    pure { m with
           mainline := { m.mainline with
             ingredients := { m.mainline.ingredients with
               edges := setEdgeWeight m.mainline.ingredients.edges e true } },
           materialize := (src, dst) :: m.materialize }

/-- Embeds `Migration::assign_domain`:
`assert_eq!(self.added.insert(n, Some(d)).unwrap(), None)` — panics unless `n`
is in `added` with no domain assigned yet. -/
def Migration.assign_domain (m : Migration) (n : Nat) (d : Nat) : Option Migration :=
  match m.added.lookup n with
  | some none => some { m with added := insertAdded m.added n (some d) }
  | _ => none

/-- Embeds `Node::mirror` applied with `Type::Reader(None, Default::default())`.
Modelled from the spec: `mirror` (node module, not under `src/`) builds a node
with the mirrored node's name and fields and the given kind; a fresh reader
has no key, no token generator and an empty subscriber list. -/
def Graph.mirrorReader (g : Graph) (n : Nat) : Option Node := do
  let nd ← g.nodeAt n
  pure { name := nd.name, fields := nd.fields,
         ntype := .reader { state := none, token_generator := none, streamers := some [] },
         transactional := nd.transactional, domain := none, addr := none, taken := false }

/-- Embeds `Migration::ensure_reader_for`: when `n` has no reader recorded in
`readers`, mirror `n` into a new `Reader` node, add the edge `n → reader`
(non-materialized) and record it; otherwise do nothing. -/
def Migration.ensure_reader_for (m : Migration) (n : Nat) : Option Migration :=
  match m.readers.lookup n with
  | some _ => some m
  | none => do
    let r ← m.mainline.ingredients.mirrorReader n
    let (g1, ri) := m.mainline.ingredients.addNode r
    let g2 ← g1.addEdge n ri false
    pure { m with
           mainline := { m.mainline with ingredients := g2 },
           readers := (n, ri) :: m.readers }

/-- The base ancestors of a node: walk incoming edges until internal nodes
holding a base. `fuel` bounds the walk by the node count. -/
def baseAncestorsAux (g : Graph) : Nat → Nat → List Nat
  | 0, _ => []
  | fuel + 1, n =>
    match g.nodeAt n with
    | none => []
    | some nd =>
      match nd.ntype with
      | .internal (some _) => [n]
      | _ => (((g.inNeighbors n).map (baseAncestorsAux g fuel)).flatten).dedup

/-- Modelled from the spec: `Node::base_columns` (the `node`/`keys` modules
are not under `src/`) walks the key's provenance to base ancestors, returning
each base paired with `some` base column when the projection of `key` is
expressible on that base (granular) and `none` otherwise (coarse). The model
returns every base ancestor as coarse; the claims settled here depend only on
a provenance list being produced, not on the coarse/granular split. -/
def Graph.base_columns (g : Graph) (_key : Nat) (n : Nat) : List (Nat × Option Nat) :=
  (baseAncestorsAux g (g.nodes.length + 1) n).map (fun b => (b, none))

/-- Embeds `Migration::ensure_token_generator`: looks up `n`'s reader (panicking when
absent or not a `Reader`); returns early when a generator is already present;
otherwise derives coarse/granular parents from `base_columns`, builds a
`TokenGenerator`, registers it with the checktable (`track`) and stores it in
the reader. -/
def Migration.ensure_token_generator (m : Migration) (n : Nat) (key : Nat) :
    Option Migration := do
  let ri ← m.readers.lookup n
  let rnd ← m.mainline.ingredients.nodeAt ri
  let inner ← rnd.ntype.readerInner?
  if inner.token_generator.isSome then
    pure m
  else do
    let _ ← m.mainline.ingredients.nodeAt n
    let base_columns := m.mainline.ingredients.base_columns key n
    let coarse := base_columns.filterMap (fun p => if p.2.isNone then some p.1 else none)
    let granular := base_columns.filterMap (fun p => p.2.map (fun c => (p.1, c)))
    let tg : TokenGenerator := { coarse := coarse, granular := granular }
    pure { m with
           mainline := { m.mainline with
             ingredients := m.mainline.ingredients.updateNode ri
               { rnd with ntype := .reader { inner with token_generator := some tg } },
             checktable := m.mainline.checktable ++ [tg] } }

/-- Embeds `Migration::maintain`: ensure a reader child exists; when `n` is
transactional, ensure its token generator; then set the reader's key when it
is unset and assert it equal to `key` otherwise. -/
def Migration.maintain (m : Migration) (n : Nat) (key : Nat) : Option Migration := do
  let m1 ← m.ensure_reader_for n
  let nd ← m1.mainline.ingredients.nodeAt n
  let m2 ← if nd.transactional then m1.ensure_token_generator n key else some m1
  let ri ← m2.readers.lookup n
  let rnd ← m2.mainline.ingredients.nodeAt ri
  let inner ← rnd.ntype.readerInner?
  match inner.state with
  | some skey =>
    -- assert_eq!(skey, key)
    if skey = key then pure m2 else none
  | none =>
    pure { m2 with
           mainline := { m2.mainline with
             ingredients := m2.mainline.ingredients.updateNode ri
               { rnd with ntype := .reader { inner with state := some key } } } }

/-- Embeds `Migration::stream`: ensure a reader child; when the reader still holds
its subscriber list (it has not been handed to a domain), push the new
subscriber onto it; otherwise send `AddStreamer` with the reader's local
address on its domain's control channel (recorded in `streamPkts`), panicking
when the domain has no channel or the reader no local address. -/
def Migration.stream (m : Migration) (n : Nat) : Option Migration := do
  let m1 ← m.ensure_reader_for n
  let ri ← m1.readers.lookup n
  let rnd ← m1.mainline.ingredients.nodeAt ri
  let inner ← rnd.ntype.readerInner?
  match inner.streamers with
  | some l =>
    pure { m1 with
           mainline := { m1.mainline with
             ingredients := m1.mainline.ingredients.updateNode ri
               { rnd with ntype := .reader { inner with streamers := some (l ++ [()]) } } } }
  | none => do
    let d ← rnd.domain
    if m1.mainline.txs.contains d then do
      let la ← rnd.addr
      pure { m1 with
             mainline := { m1.mainline with streamPkts := m1.mainline.streamPkts ++ [la] } }
    else none

/-- The data a getter closure captures: the cloned read handle (handles are
opaque, modelled by the `Nat` id stored in the registry). The closure body
(`ReadHandle::find_and`) belongs to the external `backlog` module. -/
def Blender.get_getter (b : Blender) (viewReaders : List (Nat × Nat)) (node : Nat) :
    Option Nat :=
  (b.ingredients.findReader node).bind (fun r => viewReaders.lookup r)

/-- The data a transactional getter closure captures: the read handle and the
reader's token generator; the closure maps a key to the rows found under the
handle's snapshot paired with `generator.generate(ts, key)`. -/
structure TxGetter where
  handle : Nat
  generator : TokenGenerator
deriving DecidableEq, Repr

/-- Embeds `Blender::get_transactional_getter`. Outer `none` is a panic (indexing a
node not in the graph, or the `token_generator.clone().unwrap()` on a reader
without a generator); `Except.error ()` is the returned failure. -/
def Blender.get_transactional_getter (b : Blender) (viewReaders : List (Nat × Nat))
    (node : Nat) : Option (Except Unit TxGetter) := do
  let nd ← b.ingredients.nodeAt node
  if !nd.transactional then
    pure (Except.error ())
  else
    match b.ingredients.findReaderInner node with
    | none => pure (Except.error ())
    | some (r, inner) =>
      match viewReaders.lookup r with
      | none => pure (Except.error ())
      | some rh =>
        match inner.token_generator with
        | none => none
        | some g => pure (Except.ok { handle := rh, generator := g })

/-- Embeds `Blender::outputs` over a list of candidate indices: keep the `Reader`
nodes, and for each return its first incoming neighbor (the node being
materialized) with that neighbor's node; `none` models the `unwrap` panic on a
reader with no parent. -/
def outputsAux (g : Graph) : List Nat → Option (List (Nat × Node))
  | [] => some []
  | n :: rest =>
    match g.nodeAt n with
    | some nd =>
      if nd.isReader then
        match (g.inNeighbors n).head? with
        | none => none
        | some src =>
          match g.nodeAt src with
          | none => none
          | some snd => (outputsAux g rest).map (fun l => (src, snd) :: l)
      else outputsAux g rest
    | none => outputsAux g rest

/-- Embeds `Blender::outputs`: the `Reader` leaves of the graph, each reported as
(parent address, parent node). -/
def Blender.outputs (b : Blender) : Option (List (Nat × Node)) :=
  outputsAux b.ingredients b.ingredients.externalsOutgoing

/-- The two-step candidates of `Blender::inputs`: the outgoing neighbors of
`source`'s outgoing neighbors. -/
def Blender.inputsCandidates (b : Blender) : List Nat :=
  (b.ingredients.outNeighbors b.source).flatMap (fun ing => b.ingredients.outNeighbors ing)

/-- Pair each candidate with its node, panicking (`none`) on a dangling
index. -/
def inputsAux (g : Graph) : List Nat → Option (List (Nat × Node))
  | [] => some []
  | n :: rest =>
    match g.nodeAt n with
    | none => none
    | some nd => (inputsAux g rest).map (fun l => (n, nd) :: l)

/-- Embeds `Blender::inputs`: of the nodes two steps out from `source`, those that
are internal and hold a base. -/
def Blender.inputs (b : Blender) : Option (List (Nat × Node)) :=
  (inputsAux b.ingredients b.inputsCandidates).map
    (fun l => l.filter (fun p => p.2.is_internal && p.2.get_base.isSome))

/-- The inner state of `n`'s recorded reader: follow the `readers` map and
read the reader node. -/
def Migration.readerInnerAt (m : Migration) (n : Nat) : Option ReaderInner :=
  (m.readers.lookup n).bind (fun ri =>
    (m.mainline.ingredients.nodeAt ri).bind (fun rnd => rnd.ntype.readerInner?))

/-! ## Concrete instances used by the claim theorems -/

/-- A fresh migration over the empty blender. -/
def c1mEmpty : Migration := Blender.new.start_migration 0

/-- A migration holding a transactional base `a` (node 1) attached to the
source, built through the API. -/
def mBase : Migration :=
  ((c1mEmpty.add_transactional_base "a" ["x"] ⟨[], []⟩).getD (c1mEmpty, 0)).1

/-- Result of adding a view with parent `[1]` (the transactional base of
`mBase`). -/
def c1res : Migration :=
  ((mBase.add_ingredient "c" ["y"] (.internal none) [1]).getD (mBase, 0)).1

/-- Result of adding a view with no reported parents. -/
def c1resE : Migration :=
  ((c1mEmpty.add_ingredient "v" ["x"] (.internal none) []).getD (c1mEmpty, 0)).1

/-- A migration with one node added (5, unassigned) and one already assigned
(6). -/
def c3m : Migration :=
  { mainline := Blender.new, added := [(5, none), (6, some 0)], columns := [],
    readers := [], materialize := [], start := 0 }

/-- The blender after a first migration added base `a` (node 1), a child view
`c` (node 2), and materialized the edge `a → c`; that migration is over, so a
second migration over this blender starts with an empty `materialize` set
while the edge weight is already `true`. -/
def c4blender : Blender :=
  (do
    let (m1, a) ← (Blender.new.start_migration 0).add_transactional_base "a" ["x"] ⟨[], []⟩
    let (m2, c) ← m1.add_ingredient "c" ["x"] (.internal none) [a]
    let m3 ← m2.materializeEdge a c
    pure m3.mainline).getD Blender.new

/-- The second migration over `c4blender`. -/
def c4m2 : Migration := c4blender.start_migration 1

/-- A blender with transactional base `a` (node 1) and a maintained reader
(node 2) holding a token generator, built through the API. -/
def c5blender : Blender :=
  (do
    let (m1, a) ← (Blender.new.start_migration 0).add_transactional_base "a" ["x"] ⟨[], []⟩
    let m2 ← m1.maintain a 0
    pure m2.mainline).getD Blender.new

/-- A blender with a non-transactional view `v` (node 1): no parents reported,
so `add_ingredient` leaves the flag false. -/
def c5nt : Blender :=
  (do
    let (m1, _) ← (Blender.new.start_migration 0).add_ingredient "v" ["x"] (.internal none) []
    pure m1.mainline).getD Blender.new

/-- A blender where `stream` (not `maintain`) created the reader of the
transactional base `a`: the reader (node 2) has no token generator. -/
def c5stream : Blender :=
  (do
    let (m1, a) ← (Blender.new.start_migration 0).add_transactional_base "a" ["x"] ⟨[], []⟩
    let m2 ← m1.stream a
    pure m2.mainline).getD Blender.new

/-- The base node `a` as it sits in `c5blender`. -/
def aNodeSimple : Node :=
  { name := "a", fields := ["x"], ntype := .internal (some ⟨[], []⟩),
    transactional := true, domain := none, addr := none, taken := false }

/-- Modelled from the spec: the graph after committing a migration that added
transactional bases `a` and `b` (scenario S2). The commit's `RoutingPass`
(`migrate::routing`, not under `src/`) splices an Ingress between the Source
and each base and rewrites the original `source → base` edge, so the
committed graph is `source → ingress_a → a` and `source → ingress_b → b`,
with each base and its ingress in the base's own domain. -/
def aBaseNode : Node :=
  { name := "a", fields := ["x", "y", "z"], ntype := .internal (some ⟨[], []⟩),
    transactional := true, domain := some 0, addr := some 1, taken := true }

def bBaseNode : Node :=
  { name := "b", fields := ["r", "s"], ntype := .internal (some ⟨[], []⟩),
    transactional := true, domain := some 1, addr := some 1, taken := true }

def sTwoBases : Blender :=
  { ingredients :=
      { nodes :=
          [{ name := "source", fields := ["because-type-inference"], ntype := .source,
             transactional := true, domain := none, addr := none, taken := false },
           aBaseNode, bBaseNode,
           { name := "a-ing", fields := ["x", "y", "z"], ntype := .ingress,
             transactional := true, domain := some 0, addr := some 0, taken := true },
           { name := "b-ing", fields := ["r", "s"], ntype := .ingress,
             transactional := true, domain := some 1, addr := some 0, taken := true }],
        edges := [(0, 3, false), (3, 1, false), (0, 4, false), (4, 2, false)] },
    source := 0, ndomains := 2, checktable := [], txs := [0, 1], streamPkts := [] }

/-- First `maintain` on the base of `mBase`: creates its reader (node 2). -/
def mR1 : Migration := (mBase.maintain 1 0).getD mBase

/-- Second `maintain` on the same node. -/
def mR2 : Migration := (mR1.maintain 1 0).getD mR1

/-- A `stream` call after the reader exists. -/
def mR3 : Migration := (mR1.stream 1).getD mR1

/-- First `stream` on the base of `mBase`: creates its reader (node 2). -/
def mS1 : Migration := (mBase.stream 1).getD mBase

/-- The `Reader` leaves: external nodes (no outgoing edge) of `Reader`
kind. -/
def Graph.readerLeaves (g : Graph) : List Nat :=
  g.externalsOutgoing.filter (fun n => ((g.nodeAt n).map Node.isReader).getD false)

/-! ## Helper lemmas -/

theorem length_setNodeAt (l : List Node) (i : Nat) (nd : Node) :
    (setNodeAt l i nd).length = l.length := by
  induction l generalizing i with
  | nil => rfl
  | cons x xs ih =>
    cases i with
    | zero => rfl
    | succ j => simpa [setNodeAt] using ih j

theorem getElem?_setNodeAt_self (l : List Node) (i : Nat) (nd : Node)
    (h : i < l.length) : (setNodeAt l i nd)[i]? = some nd := by
  induction l generalizing i with
  | nil => simp at h
  | cons x xs ih =>
    cases i with
    | zero => simp [setNodeAt]
    | succ j =>
      simp only [setNodeAt, List.getElem?_cons_succ]
      exact ih j (by simpa using h)

theorem getElem?_setEdgeWeight_self (l : List (Nat × Nat × Bool)) (i : Nat) (w : Bool)
    (s t : Nat) (w0 : Bool) (h : l[i]? = some (s, t, w0)) :
    (setEdgeWeight l i w)[i]? = some (s, t, w) := by
  induction l generalizing i with
  | nil => simp at h
  | cons e es ih =>
    cases i with
    | zero =>
      simp only [List.getElem?_cons_zero, Option.some.injEq] at h
      subst h
      simp [setEdgeWeight]
    | succ j =>
      simp only [setEdgeWeight, List.getElem?_cons_succ] at h ⊢
      exact ih j h

theorem nodeAt_updateNode_self (g : Graph) (i : Nat) (nd : Node) (nd0 : Node)
    (h : g.nodeAt i = some nd0) : (g.updateNode i nd).nodeAt i = some nd := by
  have hi : i < g.nodes.length := by
    by_contra hge
    simp [Graph.nodeAt, List.getElem?_eq_none (Nat.le_of_not_lt hge)] at h
  exact getElem?_setNodeAt_self g.nodes i nd hi

theorem nodes_length_updateNode (g : Graph) (i : Nat) (nd : Node) :
    (g.updateNode i nd).nodes.length = g.nodes.length :=
  length_setNodeAt g.nodes i nd

theorem Graph.addEdge_eq (g g' : Graph) (s t : Nat) (w : Bool)
    (h : g.addEdge s t w = some g') :
    g' = { g with edges := g.edges ++ [(s, t, w)] } := by
  unfold Graph.addEdge at h
  split at h
  · exact (Option.some.inj h).symm
  · simp at h

theorem foldlM_addEdge_edges (ni : Nat) (ps : List Nat) (g0 g' : Graph)
    (h : ps.foldlM (fun gacc p => gacc.addEdge p ni false) g0 = some g') :
    g'.nodes = g0.nodes ∧ ∃ es, g'.edges = g0.edges ++ es := by
  induction ps generalizing g0 with
  | nil =>
    simp only [List.foldlM_nil, pure, Option.some.injEq] at h
    exact ⟨by rw [h], [], by rw [h]; simp⟩
  | cons p ps ih =>
    rw [List.foldlM_cons] at h
    cases hg1 : g0.addEdge p ni false with
    | none => rw [hg1] at h; simp at h
    | some g1 =>
      rw [hg1] at h
      simp only [Option.bind_eq_bind, Option.some_bind] at h
      obtain ⟨hn, es, he⟩ := ih g1 h
      have h1 := Graph.addEdge_eq g0 g1 p ni false hg1
      refine ⟨by rw [hn, h1], (p, ni, false) :: es, ?_⟩
      rw [he, h1]
      simp

theorem allTransactional_eq_all (g : Graph) (ps : List Nat) (b : Bool)
    (h : allTransactional g ps = some b) :
    b = ps.all (fun p => ((g.nodeAt p).map Node.transactional).getD false) := by
  induction ps generalizing b with
  | nil =>
    simp only [allTransactional, Option.some.injEq] at h
    simp [← h]
  | cons p ps ih =>
    simp only [allTransactional] at h
    cases hp : g.nodeAt p with
    | none => rw [hp] at h; simp at h
    | some nd =>
      rw [hp] at h
      cases ht : nd.transactional with
      | true =>
        simp only [ht, if_true] at h
        simp [hp, ht, ih b h]
      | false =>
        simp only [ht, Bool.false_eq_true, if_false, Option.some.injEq] at h
        simp [← h, hp, ht]

/-! ## C1 -/

/-- C1: on every successful `add_ingredient`, the new node's transactional
flag is true iff the operator's reported parent list is non-empty and every
parent node is transactional; and when the parent list is empty, the new node
is attached by an edge from the `Source` node. -/
theorem C1_add_ingredient (m : Migration) (name : String) (fields : List String)
    (i : NType) (parents : List Nat) (m' : Migration) (ni : Nat)
    (h : m.add_ingredient name fields i parents = some (m', ni)) :
    ((m'.mainline.ingredients.nodeAt ni).map Node.transactional) =
      some (!parents.isEmpty &&
        parents.all (fun p =>
          ((m.mainline.ingredients.nodeAt p).map Node.transactional).getD false)) ∧
    (parents = [] → (m.mainline.source, ni, false) ∈ m'.mainline.ingredients.edges) := by
  unfold Migration.add_ingredient at h
  by_cases hp : parents.isEmpty
  · have hnil : parents = [] := List.isEmpty_iff.mp hp
    subst hnil
    simp only [List.isEmpty_nil, if_true, Option.bind_eq_bind, Option.some_bind,
      Graph.addNode] at h
    rw [Option.bind_eq_some] at h
    obtain ⟨g2, hes, h2⟩ := h
    simp only [pure, Option.some.injEq, Prod.mk.injEq] at h2
    obtain ⟨hm', hni⟩ := h2
    subst hni
    have hg2 := Graph.addEdge_eq _ _ _ _ _ hes
    subst hg2
    constructor
    · rw [← hm']
      simp [Graph.nodeAt, List.getElem?_concat_length]
    · intro _
      rw [← hm']
      simp
  · rw [if_neg hp] at h
    rw [Option.bind_eq_bind, Option.bind_eq_some] at h
    obtain ⟨t, htr, h⟩ := h
    simp only [Graph.addNode] at h
    rw [if_neg hp] at h
    rw [Option.bind_eq_bind, Option.bind_eq_some] at h
    obtain ⟨g2, hes, h2⟩ := h
    simp only [pure, Option.some.injEq, Prod.mk.injEq] at h2
    obtain ⟨hm', hni⟩ := h2
    subst hni
    obtain ⟨hn2, es, he2⟩ := foldlM_addEdge_edges _ _ _ _ hes
    constructor
    · rw [← hm']
      simp only [Graph.nodeAt, hn2, List.getElem?_concat_length, Option.map_some]
      rw [allTransactional_eq_all m.mainline.ingredients parents t htr]
      simp [hp, Graph.nodeAt]
    · intro hnil
      exact absurd (by simp [hnil]) hp

theorem C1_witness :
    (((c1res.mainline.ingredients.nodeAt 2).map Node.transactional) =
      some (!([1] : List Nat).isEmpty &&
        ([1] : List Nat).all (fun p =>
          ((mBase.mainline.ingredients.nodeAt p).map Node.transactional).getD false)) ∧
     (([1] : List Nat) = [] →
       (mBase.mainline.source, 2, false) ∈ c1res.mainline.ingredients.edges)) ∧
    (((c1resE.mainline.ingredients.nodeAt 1).map Node.transactional) =
      some (!([] : List Nat).isEmpty &&
        ([] : List Nat).all (fun p =>
          ((c1mEmpty.mainline.ingredients.nodeAt p).map Node.transactional).getD false)) ∧
     (([] : List Nat) = [] →
       (c1mEmpty.mainline.source, 1, false) ∈ c1resE.mainline.ingredients.edges)) :=
  ⟨C1_add_ingredient mBase "c" ["y"] (.internal none) [1] c1res 2 rfl,
   C1_add_ingredient c1mEmpty "v" ["x"] (.internal none) [] c1resE 1 rfl⟩

/-! ## C2 -/

/-- C2 counterexample: `start_migration` never fails. Here a `Migration` over
the fresh blender is live (never committed), and a second `start_migration`
call on the same blender still returns a normally-constructed `Migration`
(its pending sets empty, its start the new instant) rather than a
`MigrationInProgress` error — the function's return type has no error
variant at all; exclusivity is Rust's `&mut` borrow, not a runtime check. -/
theorem C2_counterexample :
    Blender.start_migration (Blender.start_migration Blender.new 0).mainline 1 =
      { mainline := Blender.new, added := [], columns := [], readers := [],
        materialize := [], start := 1 } := rfl

/-- C2 (amended): `Blender::start_migration` always succeeds — Rust's `&mut`
borrow statically prevents a second migration while one is active, and no
runtime `MigrationInProgress` error exists — and the returned `Migration` is
bound to this blender with all pending-change sets (added nodes, column
changes, readers, forced materializations) empty and the start instant
captured at the call. -/
theorem C2_start_migration_fresh (b : Blender) (now : Nat) :
    (b.start_migration now).mainline = b ∧
    (b.start_migration now).added = [] ∧
    (b.start_migration now).columns = [] ∧
    (b.start_migration now).readers = [] ∧
    (b.start_migration now).materialize = [] ∧
    (b.start_migration now).start = now :=
  ⟨rfl, rfl, rfl, rfl, rfl, rfl⟩

/-! ## C3 -/

/-- C3: the misuse operations are fatal at call time: `add_column` and
`drop_column` panic when the target node was added in this migration
(`added` contains it), and `assign_domain` panics unless the node is in the
migration's `added` set still without a domain. -/
theorem C3_misuse_asserts (m : Migration) (node n : Nat) (field : String)
    (default col d : Nat) :
    ((m.added.lookup node).isSome = true → m.add_column node field default = none) ∧
    ((m.added.lookup node).isSome = true → m.drop_column node col = none) ∧
    (m.added.lookup n ≠ some none → m.assign_domain n d = none) := by
  refine ⟨fun h => ?_, fun h => ?_, fun h => ?_⟩
  · simp [Migration.add_column, h]
  · simp [Migration.drop_column, h]
  · cases hl : m.added.lookup n with
    | none => simp [Migration.assign_domain, hl]
    | some v =>
      cases v with
      | none => exact absurd hl h
      | some d2 => simp [Migration.assign_domain, hl]

theorem C3_witness :
    c3m.add_column 5 "f" 0 = none ∧ c3m.drop_column 5 0 = none ∧
    c3m.assign_domain 6 1 = none ∧ c3m.assign_domain 7 1 = none :=
  ⟨(C3_misuse_asserts c3m 5 6 "f" 0 0 1).1 (by decide),
   (C3_misuse_asserts c3m 5 6 "f" 0 0 1).2.1 (by decide),
   (C3_misuse_asserts c3m 5 6 "f" 0 0 1).2.2 (by decide),
   (C3_misuse_asserts c3m 5 7 "f" 0 0 1).2.2 (by decide)⟩

/-! ## C4 -/

/-- C4 (amended): when an edge `src → dst` exists, `materialize` succeeds,
the edge's weight is set to materialized, and — when the edge was not already
materialized — the endpoint pair is recorded in the migration's set; an edge
already materialized leaves the migration unchanged (the pair is not
recorded). When no edge exists the call panics. -/
theorem C4_materialize (m : Migration) (src dst e s2 d2 : Nat) (w : Bool) :
    (m.mainline.ingredients.findEdge src dst = none →
      m.materializeEdge src dst = none) ∧
    (m.mainline.ingredients.findEdge src dst = some e →
      m.mainline.ingredients.edges[e]? = some (s2, d2, w) →
      (m.materializeEdge src dst).isSome = true ∧
      ((m.materializeEdge src dst).getD m).mainline.ingredients.edges[e]? =
        some (s2, d2, true) ∧
      (w = false → (src, dst) ∈ ((m.materializeEdge src dst).getD m).materialize) ∧
      (w = true → m.materializeEdge src dst = some m)) := by
  constructor
  · intro h
    simp [Migration.materializeEdge, h]
  · intro hf he
    cases w with
    | true =>
      have hres : m.materializeEdge src dst = some m := by
        simp [Migration.materializeEdge, hf, he]
      simp [hres, he]
    | false =>
      have hres : m.materializeEdge src dst =
          some { m with
                 mainline := { m.mainline with
                   ingredients := { m.mainline.ingredients with
                     edges := setEdgeWeight m.mainline.ingredients.edges e true } },
                 materialize := (src, dst) :: m.materialize } := by
        simp [Migration.materializeEdge, hf, he]
      refine ⟨by simp [hres], ?_, fun _ => ?_, fun hw => by simp at hw⟩
      · simp only [hres, Option.getD_some]
        exact getElem?_setEdgeWeight_self _ e true s2 d2 false he
      · simp [hres]

theorem C4_witness :
    (mBase.materializeEdge 0 1).isSome = true ∧
    ((mBase.materializeEdge 0 1).getD mBase).mainline.ingredients.edges[0]? =
      some (0, 1, true) ∧
    (false = false → (0, 1) ∈ ((mBase.materializeEdge 0 1).getD mBase).materialize) ∧
    (false = true → mBase.materializeEdge 0 1 = some mBase) :=
  (C4_materialize mBase 0 1 0 0 1 false).2 (by decide) (by decide)

/-- C4 counterexample: the edge `1 → 2` exists (already materialized by the
previous migration), `materialize` on it succeeds — but the endpoint pair is
**not** recorded in this migration's `materialize` set, contradicting the
claim that for every existing edge the pair is recorded. -/
theorem C4_counterexample :
    c4m2.mainline.ingredients.findEdge 1 2 = some 1 ∧
    c4m2.mainline.ingredients.edges[1]? = some (1, 2, true) ∧
    c4m2.materializeEdge 1 2 = some c4m2 ∧
    ((c4m2.materializeEdge 1 2).getD c4m2).materialize = [] ∧
    (1, 2) ∉ ((c4m2.materializeEdge 1 2).getD c4m2).materialize := by
  refine ⟨by decide, by decide, rfl, rfl, by decide⟩

/-! ## C5 -/

/-- C5 (amended): `get_transactional_getter` fails with the
`NotTransactional` error whenever the target node's transactional flag is not
set; when the flag is set, a `Reader` child with a registered read handle
exists, **and that reader holds a token generator**, it returns the callable
(capturing the handle and the generator, mapping a key to rows paired with a
generated `Token`). A registered reader without a token generator panics
(`unwrap`), so the generator condition cannot be dropped. -/
theorem C5_transactional_getter (b : Blender) (vr : List (Nat × Nat))
    (node r rh : Nat) (inner : ReaderInner) (g : TokenGenerator) (nd : Node)
    (hnd : b.ingredients.nodeAt node = some nd) :
    (nd.transactional = false →
      b.get_transactional_getter vr node = some (Except.error ())) ∧
    (nd.transactional = true →
      b.ingredients.findReaderInner node = some (r, inner) →
      vr.lookup r = some rh →
      inner.token_generator = some g →
      b.get_transactional_getter vr node =
        some (Except.ok { handle := rh, generator := g })) := by
  constructor
  · intro ht
    simp [Blender.get_transactional_getter, hnd, ht]
  · intro ht hr hh hg
    simp [Blender.get_transactional_getter, hnd, ht, hr, hh, hg]

theorem C5_witness :
    c5nt.get_transactional_getter [] 1 = some (Except.error ()) ∧
    c5blender.get_transactional_getter [(2, 42)] 1 =
      some (Except.ok { handle := 42, generator := { coarse := [1], granular := [] } }) :=
  ⟨(C5_transactional_getter c5nt [] 1 0 0
      { state := none, token_generator := none, streamers := some [] }
      { coarse := [], granular := [] }
      { name := "v", fields := ["x"], ntype := .internal none, transactional := false,
        domain := none, addr := none, taken := false } rfl).1 rfl,
   (C5_transactional_getter c5blender [(2, 42)] 1 2 42
      { state := some 0, token_generator := some { coarse := [1], granular := [] },
        streamers := some [] }
      { coarse := [1], granular := [] }
      { name := "a", fields := ["x"], ntype := .internal (some ⟨[], []⟩),
        transactional := true, domain := none, addr := none, taken := false } rfl).2
      rfl rfl rfl rfl⟩

/-- C5 counterexample: node 1 is transactional and its `Reader` child (node 2)
has a read handle registered — yet `get_transactional_getter` does not return
a callable: it panics (`token_generator.clone().unwrap()` on `None`),
because the reader (created by `stream`, never `maintain`ed) has no token
generator. -/
theorem C5_counterexample :
    (c5stream.ingredients.nodeAt 1).map Node.transactional = some true ∧
    c5stream.ingredients.findReader 1 = some 2 ∧
    ([(2, 42)] : List (Nat × Nat)).lookup 2 = some 42 ∧
    c5stream.get_transactional_getter [(2, 42)] 1 = none := by
  refine ⟨by decide, by decide, rfl, rfl⟩

/-! ## C6 -/

/-- C6: when a node has no `Reader` child, or its `Reader` child has no read
handle in the process-wide registry, `get_getter` returns `none` and
`get_transactional_getter` (on a transactional node) returns the failure. -/
theorem C6_no_reader_or_handle (b : Blender) (vr : List (Nat × Nat))
    (node r : Nat) (inner : ReaderInner) (nd : Node)
    (hnd : b.ingredients.nodeAt node = some nd) :
    (b.ingredients.findReaderInner node = none →
      b.get_getter vr node = none ∧
      (nd.transactional = true →
        b.get_transactional_getter vr node = some (Except.error ()))) ∧
    (b.ingredients.findReaderInner node = some (r, inner) → vr.lookup r = none →
      b.get_getter vr node = none ∧
      (nd.transactional = true →
        b.get_transactional_getter vr node = some (Except.error ()))) := by
  constructor
  · intro hr
    refine ⟨by simp [Blender.get_getter, Graph.findReader, hr], fun ht => ?_⟩
    simp [Blender.get_transactional_getter, hnd, ht, hr]
  · intro hr hh
    refine ⟨by simp [Blender.get_getter, Graph.findReader, hr, hh], fun ht => ?_⟩
    simp [Blender.get_transactional_getter, hnd, ht, hr, hh]

theorem C6_witness :
    (Blender.new.get_getter [(7, 42)] 0 = none ∧
      Blender.new.get_transactional_getter [(7, 42)] 0 = some (Except.error ())) ∧
    (c5blender.get_getter [] 1 = none ∧
      c5blender.get_transactional_getter [] 1 = some (Except.error ())) :=
  ⟨⟨((C6_no_reader_or_handle Blender.new [(7, 42)] 0 0
        { state := none, token_generator := none, streamers := some [] }
        { name := "source", fields := ["because-type-inference"], ntype := .source,
          transactional := true, domain := none, addr := none, taken := false }
        rfl).1 rfl).1,
    ((C6_no_reader_or_handle Blender.new [(7, 42)] 0 0
        { state := none, token_generator := none, streamers := some [] }
        { name := "source", fields := ["because-type-inference"], ntype := .source,
          transactional := true, domain := none, addr := none, taken := false }
        rfl).1 rfl).2 rfl⟩,
   ⟨((C6_no_reader_or_handle c5blender [] 1 2
        { state := some 0, token_generator := some { coarse := [1], granular := [] },
          streamers := some [] }
        { name := "a", fields := ["x"], ntype := .internal (some ⟨[], []⟩),
          transactional := true, domain := none, addr := none, taken := false }
        rfl).2 rfl rfl).1,
    ((C6_no_reader_or_handle c5blender [] 1 2
        { state := some 0, token_generator := some { coarse := [1], granular := [] },
          streamers := some [] }
        { name := "a", fields := ["x"], ntype := .internal (some ⟨[], []⟩),
          transactional := true, domain := none, addr := none, taken := false }
        rfl).2 rfl rfl).2 rfl⟩⟩

/-! ## C8 -/

theorem inputsAux_mem (g : Graph) (cs : List Nat) (l : List (Nat × Node))
    (h : inputsAux g cs = some l) (n : Nat) (nd : Node) :
    (n, nd) ∈ l ↔ n ∈ cs ∧ g.nodeAt n = some nd := by
  induction cs generalizing l with
  | nil =>
    simp only [inputsAux, Option.some.injEq] at h
    simp [← h]
  | cons c rest ih =>
    simp only [inputsAux] at h
    cases hc : g.nodeAt c with
    | none => rw [hc] at h; simp at h
    | some nd0 =>
      rw [hc] at h
      rw [Option.map_eq_some'] at h
      obtain ⟨l', hrest, hl⟩ := h
      subst hl
      constructor
      · intro hmem
        rcases List.mem_cons.mp hmem with heq | hmem'
        · rcases Prod.mk.inj heq with ⟨h1, h2⟩
          subst h1; subst h2
          exact ⟨List.mem_cons_self .., hc⟩
        · obtain ⟨hin, hnd⟩ := (ih l' hrest).mp hmem'
          exact ⟨List.mem_cons_of_mem _ hin, hnd⟩
      · rintro ⟨hin, hnd⟩
        rcases List.mem_cons.mp hin with heq | hin'
        · subst heq
          rw [hc] at hnd
          obtain rfl := Option.some.inj hnd
          exact List.mem_cons_self ..
        · exact List.mem_cons_of_mem _ ((ih l' hrest).mpr ⟨hin', hnd⟩)

/-- C8: a pair `(n, nd)` is listed by `inputs` exactly when `n` is reachable
from the Source in two steps (through some middle node, in the running system
an Ingress) and is an internal node holding a base; and on the (spec-modelled)
graph left by committing a migration with transactional bases `a` and `b`,
`inputs` lists exactly `a` and `b`. -/
theorem C8_inputs (b : Blender) (l : List (Nat × Node)) (n : Nat) (nd : Node)
    (h : b.inputs = some l) :
    ((n, nd) ∈ l ↔
      ((∃ mid, mid ∈ b.ingredients.outNeighbors b.source ∧
          n ∈ b.ingredients.outNeighbors mid) ∧
        b.ingredients.nodeAt n = some nd ∧
        nd.is_internal = true ∧ nd.get_base.isSome = true)) ∧
    (sTwoBases.inputs).map (fun l2 => l2.map Prod.fst) = some [1, 2] := by
  constructor
  · unfold Blender.inputs at h
    rw [Option.map_eq_some'] at h
    obtain ⟨l0, haux, hl⟩ := h
    subst hl
    rw [List.mem_filter, inputsAux_mem b.ingredients _ l0 haux n nd]
    unfold Blender.inputsCandidates
    rw [List.mem_flatMap]
    constructor
    · rintro ⟨⟨⟨mid, hmid, hn⟩, hnd⟩, hp⟩
      simp only [Bool.and_eq_true] at hp
      exact ⟨⟨mid, hmid, hn⟩, hnd, hp.1, hp.2⟩
    · rintro ⟨⟨mid, hmid, hn⟩, hnd, h1, h2⟩
      exact ⟨⟨⟨mid, hmid, hn⟩, hnd⟩, by simp [h1, h2]⟩
  · decide

/-! ## C7 -/

theorem head?_inNeighbors_ne (g : Graph) (r a : Nat)
    (hext : (g.outNeighbors r).isEmpty = true)
    (h : (g.inNeighbors r).head? = some a) : a ≠ r := by
  intro har
  subst har
  have hmem : a ∈ g.inNeighbors a := by
    cases hl : g.inNeighbors a with
    | nil => rw [hl] at h; simp at h
    | cons x xs =>
      rw [hl] at h
      simp only [List.head?_cons, Option.some.injEq] at h
      rw [← h]
      exact List.mem_cons_self ..
  unfold Graph.inNeighbors at hmem
  rw [List.mem_map] at hmem
  obtain ⟨e, hef, hea⟩ := hmem
  rw [List.mem_filter] at hef
  obtain ⟨hee, her⟩ := hef
  have hout : e.2.1 ∈ g.outNeighbors a := by
    unfold Graph.outNeighbors
    rw [List.mem_map]
    refine ⟨e, List.mem_filter.mpr ⟨hee, by simp [hea]⟩, rfl⟩
  rw [List.isEmpty_iff.mp hext] at hout
  simp at hout

theorem outputsAux_forall₂ (g : Graph) (cs : List Nat) (l : List (Nat × Node))
    (hext : ∀ n ∈ cs, (g.outNeighbors n).isEmpty = true)
    (h : outputsAux g cs = some l) :
    List.Forall₂ (fun (pr : Nat × Node) (r : Nat) =>
      (g.inNeighbors r).head? = some pr.1 ∧ g.nodeAt pr.1 = some pr.2 ∧ pr.1 ≠ r)
      l (cs.filter (fun n => ((g.nodeAt n).map Node.isReader).getD false)) := by
  induction cs generalizing l with
  | nil =>
    simp only [outputsAux, Option.some.injEq] at h
    subst h
    exact List.Forall₂.nil
  | cons c rest ih =>
    have hextr : ∀ n ∈ rest, (g.outNeighbors n).isEmpty = true :=
      fun n hn => hext n (List.mem_cons_of_mem _ hn)
    simp only [outputsAux] at h
    cases hc : g.nodeAt c with
    | none =>
      rw [hc] at h
      rw [List.filter_cons_of_neg (by simp [hc])]
      exact ih l hextr h
    | some nd =>
      rw [hc] at h
      cases hr : nd.isReader with
      | false =>
        simp only [hr, Bool.false_eq_true, if_false] at h
        rw [List.filter_cons_of_neg (by simp [hc, hr])]
        exact ih l hextr h
      | true =>
        simp only [hr, if_true] at h
        cases hh : (g.inNeighbors c).head? with
        | none => rw [hh] at h; simp at h
        | some src =>
          rw [hh] at h
          dsimp only at h
          cases hs : g.nodeAt src with
          | none => rw [hs] at h; simp at h
          | some snd =>
            rw [hs] at h
            dsimp only at h
            rw [Option.map_eq_some'] at h
            obtain ⟨l', hrest, hl⟩ := h
            subst hl
            rw [List.filter_cons_of_pos (by simp [hc, hr])]
            exact List.Forall₂.cons
              ⟨hh, hs, head?_inNeighbors_ne g c src (hext c (List.mem_cons_self ..)) hh⟩
              (ih l' hextr hrest)

/-- C7: the pairs returned by `outputs` correspond one-to-one, in order, to
the `Reader` leaves of the graph — so every Reader leaf contributes exactly
one pair — and each pair's address is that Reader's parent (its incoming
neighbor), with the parent's node, and is never the Reader node itself. -/
theorem C7_outputs (b : Blender) (l : List (Nat × Node)) (h : b.outputs = some l) :
    List.Forall₂ (fun (pr : Nat × Node) (r : Nat) =>
      (b.ingredients.inNeighbors r).head? = some pr.1 ∧
      b.ingredients.nodeAt pr.1 = some pr.2 ∧ pr.1 ≠ r)
      l b.ingredients.readerLeaves := by
  refine outputsAux_forall₂ b.ingredients _ l (fun n hn => ?_) h
  unfold Graph.externalsOutgoing at hn
  exact (List.mem_filter.mp hn).2

theorem C7_witness :
    List.Forall₂ (fun (pr : Nat × Node) (r : Nat) =>
      (c5blender.ingredients.inNeighbors r).head? = some pr.1 ∧
      c5blender.ingredients.nodeAt pr.1 = some pr.2 ∧ pr.1 ≠ r)
      [(1, aNodeSimple)] c5blender.ingredients.readerLeaves :=
  C7_outputs c5blender [(1, aNodeSimple)] rfl

/-! ## C9 and C10: reader lifecycle lemmas -/

theorem ensure_reader_for_present (m : Migration) (n r : Nat)
    (hl : m.readers.lookup n = some r) : m.ensure_reader_for n = some m := by
  simp [Migration.ensure_reader_for, hl]

theorem ensure_reader_for_fresh (m m1 : Migration) (n : Nat)
    (hl : m.readers.lookup n = none) (h : m.ensure_reader_for n = some m1) :
    ∃ nd, m.mainline.ingredients.nodeAt n = some nd ∧
      m1 = { m with
             mainline := { m.mainline with
               ingredients :=
                 { nodes := m.mainline.ingredients.nodes ++
                     [{ name := nd.name, fields := nd.fields,
                        ntype := .reader { state := none, token_generator := none,
                                           streamers := some [] },
                        transactional := nd.transactional, domain := none,
                        addr := none, taken := false }],
                   edges := m.mainline.ingredients.edges ++
                     [(n, m.mainline.ingredients.nodes.length, false)] } },
             readers := (n, m.mainline.ingredients.nodes.length) :: m.readers } := by
  unfold Migration.ensure_reader_for Graph.mirrorReader at h
  rw [hl] at h
  dsimp only at h
  cases hnd : m.mainline.ingredients.nodeAt n with
  | none => rw [hnd] at h; simp at h
  | some nd =>
    rw [hnd] at h
    refine ⟨nd, rfl, ?_⟩
    simp only [Option.bind_eq_bind, Option.some_bind, pure, Graph.addNode] at h
    rw [Option.bind_eq_some] at h
    obtain ⟨g2, hae, h2⟩ := h
    have hg2 := Graph.addEdge_eq _ _ _ _ _ hae
    subst hg2
    exact (Option.some.inj h2).symm

theorem ensure_token_generator_spec (m m2 : Migration) (n key : Nat)
    (h : m.ensure_token_generator n key = some m2) :
    m2.readers = m.readers ∧
    m2.mainline.ingredients.nodes.length = m.mainline.ingredients.nodes.length ∧
    (m.readerInnerAt n).isSome = true ∧
    (m2.readerInnerAt n).map (fun i => (i.token_generator.isSome, i.state, i.streamers)) =
      (m.readerInnerAt n).map (fun i => (true, i.state, i.streamers)) := by
  unfold Migration.ensure_token_generator at h
  cases hri : m.readers.lookup n with
  | none => rw [hri] at h; simp at h
  | some ri =>
    rw [hri] at h
    dsimp only [Option.bind_eq_bind, Option.some_bind] at h
    cases hrnd : m.mainline.ingredients.nodeAt ri with
    | none => rw [hrnd] at h; simp at h
    | some rnd =>
      rw [hrnd] at h
      dsimp only [Option.bind_eq_bind, Option.some_bind] at h
      cases hin : rnd.ntype.readerInner? with
      | none => rw [hin] at h; simp at h
      | some inner =>
        rw [hin] at h
        dsimp only [Option.bind_eq_bind, Option.some_bind] at h
        cases hg : inner.token_generator with
        | some tg0 =>
          simp only [hg, Option.isSome_some, if_true, pure, Option.some.injEq] at h
          subst h
          refine ⟨rfl, rfl, ?_, ?_⟩
          · simp [Migration.readerInnerAt, hri, hrnd, hin]
          · simp [Migration.readerInnerAt, hri, hrnd, hin, hg]
        | none =>
          simp only [hg, Option.isSome_none, Bool.false_eq_true, if_false] at h
          cases hnn : m.mainline.ingredients.nodeAt n with
          | none => rw [hnn] at h; simp at h
          | some nd0 =>
            rw [hnn] at h
            simp only [Option.bind_eq_bind, Option.some_bind, pure,
              Option.some.injEq] at h
            subst h
            refine ⟨rfl, nodes_length_updateNode .., ?_, ?_⟩
            · simp [Migration.readerInnerAt, hri, hrnd, hin]
            · simp only [Migration.readerInnerAt, hri, Option.bind_eq_bind,
                Option.some_bind]
              rw [nodeAt_updateNode_self _ _ _ _ hrnd, hrnd]
              simp only [Option.some_bind]
              rw [hin]
              simp [NType.readerInner?]

theorem readerInnerAt_eq_some (m : Migration) (n ri : Nat) (rnd : Node)
    (inner : ReaderInner) (hri : m.readers.lookup n = some ri)
    (hrnd : m.mainline.ingredients.nodeAt ri = some rnd)
    (hin : rnd.ntype.readerInner? = some inner) :
    m.readerInnerAt n = some inner := by
  simp [Migration.readerInnerAt, hri, hrnd, hin]

theorem readerInnerAt_update (m2 : Migration) (n ri : Nat) (rnd : Node)
    (inner2 : ReaderInner) (hri : m2.readers.lookup n = some ri)
    (hrnd : m2.mainline.ingredients.nodeAt ri = some rnd) :
    Migration.readerInnerAt
      { m2 with
        mainline := { m2.mainline with
          ingredients := m2.mainline.ingredients.updateNode ri
            { rnd with ntype := .reader inner2 } } } n = some inner2 := by
  refine readerInnerAt_eq_some _ n ri { rnd with ntype := .reader inner2 } inner2 ?_ ?_ rfl
  · exact hri
  · exact nodeAt_updateNode_self _ _ _ _ hrnd

theorem ensure_reader_for_nodeAt (m m1 : Migration) (n j : Nat) (nd : Node)
    (hnd : m.mainline.ingredients.nodeAt j = some nd)
    (h : m.ensure_reader_for n = some m1) :
    m1.mainline.ingredients.nodeAt j = some nd := by
  cases hl : m.readers.lookup n with
  | some r =>
    rw [ensure_reader_for_present m n r hl] at h
    rw [← Option.some.inj h]
    exact hnd
  | none =>
    obtain ⟨nd0, hnd0, rfl⟩ := ensure_reader_for_fresh m m1 n hl h
    have hj : j < m.mainline.ingredients.nodes.length := by
      by_contra hge
      rw [Graph.nodeAt, List.getElem?_eq_none (Nat.le_of_not_lt hge)] at hnd
      exact Option.noConfusion hnd
    simpa [Graph.nodeAt, List.getElem?_append, hj] using hnd

/-- The tail of `maintain` after `ensure_reader_for`: success never adds a
node, never changes the `readers` map, and leaves `n` with a `Reader`. -/
theorem maintain_decomp (m m' : Migration) (n key : Nat)
    (h : m.maintain n key = some m') :
    ∃ m1, m.ensure_reader_for n = some m1 ∧
      m'.mainline.ingredients.nodes.length = m1.mainline.ingredients.nodes.length ∧
      m'.readers = m1.readers ∧
      (m'.readerInnerAt n).isSome = true := by
  unfold Migration.maintain at h
  rw [Option.bind_eq_bind, Option.bind_eq_some] at h
  obtain ⟨m1, h1, h⟩ := h
  refine ⟨m1, h1, ?_⟩
  rw [Option.bind_eq_bind, Option.bind_eq_some] at h
  obtain ⟨nd1, hnd1, h⟩ := h
  have htail : ∀ m2 : Migration,
      m2.readers = m1.readers →
      m2.mainline.ingredients.nodes.length = m1.mainline.ingredients.nodes.length →
      ((m2.readers.lookup n).bind (fun ri =>
        (m2.mainline.ingredients.nodeAt ri).bind (fun rnd =>
          (rnd.ntype.readerInner?).bind (fun inner =>
            match inner.state with
            | some skey => if skey = key then pure m2 else none
            | none =>
              pure { m2 with
                     mainline := { m2.mainline with
                       ingredients := m2.mainline.ingredients.updateNode ri
                         { rnd with ntype :=
                             .reader { inner with state := some key } } } })))) = some m' →
      m'.mainline.ingredients.nodes.length = m1.mainline.ingredients.nodes.length ∧
      m'.readers = m1.readers ∧ (m'.readerInnerAt n).isSome = true := by
    intro m2 hrd hln htl
    rw [Option.bind_eq_some] at htl
    obtain ⟨ri, hri, htl⟩ := htl
    rw [Option.bind_eq_some] at htl
    obtain ⟨rnd, hrnd, htl⟩ := htl
    rw [Option.bind_eq_some] at htl
    obtain ⟨inner, hin, htl⟩ := htl
    cases hst : inner.state with
    | some skey =>
      rw [hst] at htl
      dsimp only at htl
      by_cases hk : skey = key
      · rw [if_pos hk] at htl
        simp only [pure, Option.some.injEq] at htl
        subst htl
        exact ⟨hln, hrd, by
          rw [readerInnerAt_eq_some m2 n ri rnd inner hri hrnd hin]; rfl⟩
      · rw [if_neg hk] at htl
        exact Option.noConfusion htl
    | none =>
      rw [hst] at htl
      dsimp only at htl
      simp only [pure, Option.some.injEq] at htl
      subst htl
      refine ⟨?_, hrd, ?_⟩
      · simpa [nodes_length_updateNode] using hln
      · have hru := readerInnerAt_update m2 n ri rnd
          { inner with state := some key } hri hrnd
        exact (congrArg Option.isSome hru).trans rfl
  cases htr : nd1.transactional with
  | false =>
    rw [htr] at h
    simp only [Bool.false_eq_true, if_false, Option.bind_eq_bind, Option.some_bind] at h
    exact htail m1 rfl rfl h
  | true =>
    rw [htr] at h
    simp only [if_true, Option.bind_eq_bind] at h
    rw [Option.bind_eq_some] at h
    obtain ⟨m2, h2, h⟩ := h
    obtain ⟨hrd, hln, _, _⟩ := ensure_token_generator_spec m1 m2 n key h2
    exact htail m2 hrd hln h

/-- The tail of `stream` after `ensure_reader_for`: success never adds a
node, never changes the `readers` map, and leaves `n` with a `Reader`. -/
theorem stream_decomp (m m' : Migration) (n : Nat)
    (h : m.stream n = some m') :
    ∃ m1, m.ensure_reader_for n = some m1 ∧
      m'.mainline.ingredients.nodes.length = m1.mainline.ingredients.nodes.length ∧
      m'.readers = m1.readers ∧
      (m'.readerInnerAt n).isSome = true := by
  unfold Migration.stream at h
  rw [Option.bind_eq_bind, Option.bind_eq_some] at h
  obtain ⟨m1, h1, h⟩ := h
  refine ⟨m1, h1, ?_⟩
  rw [Option.bind_eq_bind, Option.bind_eq_some] at h
  obtain ⟨ri, hri, h⟩ := h
  rw [Option.bind_eq_bind, Option.bind_eq_some] at h
  obtain ⟨rnd, hrnd, h⟩ := h
  rw [Option.bind_eq_bind, Option.bind_eq_some] at h
  obtain ⟨inner, hin, h⟩ := h
  cases hstr : inner.streamers with
  | some l =>
    rw [hstr] at h
    dsimp only at h
    simp only [pure, Option.some.injEq] at h
    subst h
    refine ⟨?_, rfl, ?_⟩
    · exact nodes_length_updateNode ..
    · have hru := readerInnerAt_update m1 n ri rnd
        { inner with streamers := some (l ++ [()]) } hri hrnd
      exact (congrArg Option.isSome hru).trans rfl
  | none =>
    rw [hstr] at h
    dsimp only at h
    rw [Option.bind_eq_some] at h
    obtain ⟨d, hd, h⟩ := h
    by_cases htx : m1.mainline.txs.contains d
    · rw [if_pos htx] at h
      rw [Option.bind_eq_some] at h
      obtain ⟨la, hla, h⟩ := h
      simp only [pure, Option.some.injEq] at h
      subst h
      refine ⟨rfl, rfl, ?_⟩
      have hru := readerInnerAt_eq_some m1 n ri rnd inner hri hrnd hin
      exact (congrArg Option.isSome hru).trans rfl
    · rw [if_neg htx] at h
      exact Option.noConfusion h

/-- C10: within a migration, at most one Reader child of `n` is created: when
`readers` has no entry for `n`, the first successful `maintain` or `stream`
call adds exactly one node (the new `Reader`, recorded under `n`); when an
entry exists, a successful `maintain` or `stream` adds no node and `readers`
still maps `n` to the same reader. -/
theorem C10_reader_reuse (m : Migration) (n k k2 : Nat) :
    (m.readers.lookup n = none →
      ∀ m1, (m.maintain n k = some m1 ∨ m.stream n = some m1) →
        m1.mainline.ingredients.nodes.length =
          m.mainline.ingredients.nodes.length + 1 ∧
        m1.readers.lookup n = some m.mainline.ingredients.nodes.length ∧
        (m1.readerInnerAt n).isSome = true) ∧
    (∀ r, m.readers.lookup n = some r →
      ∀ m2, (m.maintain n k2 = some m2 ∨ m.stream n = some m2) →
        m2.mainline.ingredients.nodes.length = m.mainline.ingredients.nodes.length ∧
        m2.readers.lookup n = some r ∧
        (m2.readerInnerAt n).isSome = true) := by
  constructor
  · intro hl m1 hcall
    obtain ⟨ma, hma, hlen, hrd, hsome⟩ :=
      hcall.elim (maintain_decomp m m1 n k) (stream_decomp m m1 n)
    obtain ⟨nd0, hnd0, rfl⟩ := ensure_reader_for_fresh m ma n hl hma
    refine ⟨?_, ?_, hsome⟩
    · rw [hlen]; simp
    · rw [hrd]; simp
  · intro r hr m2 hcall
    obtain ⟨ma, hma, hlen, hrd, hsome⟩ :=
      hcall.elim (maintain_decomp m m2 n k2) (stream_decomp m m2 n)
    rw [ensure_reader_for_present m n r hr] at hma
    obtain rfl := Option.some.inj hma
    exact ⟨hlen, by rw [hrd]; exact hr, hsome⟩

/-- C9: when `maintain(n, key)` succeeds on a transactional node `n`, `n`'s
reader afterwards holds a token generator and its key is `key` — set when it
was unset, left unchanged when it already was `key`; and a `maintain` whose
key differs from the reader's current key panics. -/
theorem C9_maintain (m : Migration) (n key : Nat) (nd : Node)
    (hnd : m.mainline.ingredients.nodeAt n = some nd)
    (ht : nd.transactional = true) :
    (∀ m', m.maintain n key = some m' →
      (m'.readerInnerAt n).map (fun i => (i.token_generator.isSome, i.state)) =
        some (true, some key)) ∧
    (∀ inner k2, m.readerInnerAt n = some inner → inner.state = some k2 →
      k2 ≠ key → m.maintain n key = none) := by
  constructor
  · intro m' h
    unfold Migration.maintain at h
    rw [Option.bind_eq_bind, Option.bind_eq_some] at h
    obtain ⟨m1, h1, h⟩ := h
    rw [Option.bind_eq_bind, Option.bind_eq_some] at h
    obtain ⟨nd1, hnd1, h⟩ := h
    have hpres := ensure_reader_for_nodeAt m m1 n n nd hnd h1
    rw [hpres] at hnd1
    obtain rfl := Option.some.inj hnd1
    rw [ht] at h
    simp only [if_true, Option.bind_eq_bind] at h
    rw [Option.bind_eq_some] at h
    obtain ⟨m2, h2, h⟩ := h
    obtain ⟨hrd2, hln2, hsm1, hmap⟩ := ensure_token_generator_spec m1 m2 n key h2
    rw [Option.bind_eq_some] at h
    obtain ⟨ri, hri, h⟩ := h
    rw [Option.bind_eq_some] at h
    obtain ⟨rnd, hrnd, h⟩ := h
    rw [Option.bind_eq_some] at h
    obtain ⟨inner, hin, h⟩ := h
    have hm2i : m2.readerInnerAt n = some inner :=
      readerInnerAt_eq_some m2 n ri rnd inner hri hrnd hin
    have hgen : inner.token_generator.isSome = true := by
      rw [hm2i] at hmap
      cases hm1i : m1.readerInnerAt n with
      | none => rw [hm1i] at hsm1; simp at hsm1
      | some i1 =>
        rw [hm1i] at hmap
        simp only [Option.map_some', Option.some.injEq, Prod.mk.injEq] at hmap
        exact hmap.1
    cases hst : inner.state with
    | some skey =>
      rw [hst] at h
      dsimp only at h
      by_cases hk : skey = key
      · rw [if_pos hk] at h
        simp only [pure, Option.some.injEq] at h
        subst h
        rw [hm2i]
        simp [hgen, hst, hk]
      · rw [if_neg hk] at h
        exact Option.noConfusion h
    | none =>
      rw [hst] at h
      dsimp only at h
      simp only [pure, Option.some.injEq] at h
      subst h
      have hru := readerInnerAt_update m2 n ri rnd
        { inner with state := some key } hri hrnd
      have hcg := congrArg
        (fun o : Option ReaderInner =>
          o.map (fun i => (i.token_generator.isSome, i.state))) hru
      exact hcg.trans (by simp [hgen])
  · intro inner k2 hinner hst hne
    unfold Migration.readerInnerAt at hinner
    rw [Option.bind_eq_some] at hinner
    obtain ⟨ri, hri, hinner⟩ := hinner
    rw [Option.bind_eq_some] at hinner
    obtain ⟨rnd, hrnd, hin⟩ := hinner
    unfold Migration.maintain
    rw [ensure_reader_for_present m n ri hri]
    rw [Option.bind_eq_bind, Option.some_bind, hnd, Option.bind_eq_bind,
      Option.some_bind, ht]
    simp only [if_true, Option.bind_eq_bind]
    cases hetg : m.ensure_token_generator n key with
    | none => simp
    | some m2 =>
      simp only [Option.some_bind]
      obtain ⟨hrd2, hln2, hsm, hmap⟩ := ensure_token_generator_spec m m2 n key hetg
      have hmi : m.readerInnerAt n = some inner :=
        readerInnerAt_eq_some m n ri rnd inner hri hrnd hin
      rw [hmi] at hmap
      cases hm2i : m2.readerInnerAt n with
      | none => rw [hm2i] at hmap; simp at hmap
      | some inner2 =>
        rw [hm2i] at hmap
        simp only [Option.map_some', Option.some.injEq, Prod.mk.injEq] at hmap
        have hst2 : inner2.state = some k2 := by rw [hmap.2.1, hst]
        unfold Migration.readerInnerAt at hm2i
        rw [Option.bind_eq_some] at hm2i
        obtain ⟨ri2, hri2, hm2i⟩ := hm2i
        rw [Option.bind_eq_some] at hm2i
        obtain ⟨rnd2, hrnd2, hin2⟩ := hm2i
        rw [hri2, Option.some_bind, hrnd2, Option.some_bind, hin2,
          Option.some_bind, hst2]
        dsimp only
        rw [if_neg hne]

theorem C9_witness :
    ((mR1.readerInnerAt 1).map (fun i => (i.token_generator.isSome, i.state)) =
      some (true, some 0)) ∧
    mR1.maintain 1 1 = none :=
  ⟨(C9_maintain mBase 1 0 aNodeSimple rfl rfl).1 mR1 rfl,
   (C9_maintain mR1 1 1 aNodeSimple rfl rfl).2
     { state := some 0, token_generator := some { coarse := [1], granular := [] },
       streamers := some [] }
     0 rfl rfl (by decide)⟩

theorem C10_witness :
    (mR1.mainline.ingredients.nodes.length =
        mBase.mainline.ingredients.nodes.length + 1 ∧
      mR1.readers.lookup 1 = some mBase.mainline.ingredients.nodes.length ∧
      (mR1.readerInnerAt 1).isSome = true) ∧
    (mS1.mainline.ingredients.nodes.length =
        mBase.mainline.ingredients.nodes.length + 1 ∧
      mS1.readers.lookup 1 = some mBase.mainline.ingredients.nodes.length ∧
      (mS1.readerInnerAt 1).isSome = true) ∧
    (mR2.mainline.ingredients.nodes.length = mR1.mainline.ingredients.nodes.length ∧
      mR2.readers.lookup 1 = some 2 ∧ (mR2.readerInnerAt 1).isSome = true) ∧
    (mR3.mainline.ingredients.nodes.length = mR1.mainline.ingredients.nodes.length ∧
      mR3.readers.lookup 1 = some 2 ∧ (mR3.readerInnerAt 1).isSome = true) :=
  ⟨(C10_reader_reuse mBase 1 0 0).1 rfl mR1 (Or.inl rfl),
   (C10_reader_reuse mBase 1 0 0).1 rfl mS1 (Or.inr rfl),
   (C10_reader_reuse mR1 1 0 0).2 2 rfl mR2 (Or.inl rfl),
   (C10_reader_reuse mR1 1 0 0).2 2 rfl mR3 (Or.inr rfl)⟩

theorem C8_witness :
    ((1, aBaseNode) ∈ [(1, aBaseNode), (2, bBaseNode)] ↔
      ((∃ mid, mid ∈ sTwoBases.ingredients.outNeighbors sTwoBases.source ∧
          1 ∈ sTwoBases.ingredients.outNeighbors mid) ∧
        sTwoBases.ingredients.nodeAt 1 = some aBaseNode ∧
        aBaseNode.is_internal = true ∧ aBaseNode.get_base.isSome = true)) ∧
    (sTwoBases.inputs).map (fun l2 => l2.map Prod.fst) = some [1, 2] :=
  C8_inputs sTwoBases [(1, aBaseNode), (2, bBaseNode)] 1 aBaseNode rfl

end Noria
